import Mathlib

/-!
Verification of the tcp-navigator search-strategy engine and server.

This file gives a shallow embedding of the repository's core code:

* `src/core/helpers/file_loader.py` — the `FileLoader` class with its five
  search strategies (`_low_level_search`, `_high_level_search`,
  `_search_with_brute_force`, `_search_with_grep`, `_search_with_regex`),
  the `check_text` dispatcher and `clear_file_data_from_memory`;
* `src/core/server.py` — `TcpServer.__init__` / `TcpServer.bind_server`
  and the per-connection loop of `TcpRequestHandler.handle`.

Byte strings are modelled as `List Nat` (one `Nat` per byte), the
`defaultdict[bytes, bool]` cache as an association list in insertion
order, and the file system / external processes as explicit inputs
(the on-disk content at the moment of a read, the outcome of one grep
invocation).  Each definition carries a comment pointing at the Python
it embeds.
-/

/-! ## Definitions: the shallow embedding of the code -/

/-- A byte string (Python `bytes`): a list of byte values. -/
abbrev Bytes := List Nat

/-- Embeds Python `content.split(b"\n")` (with `10 = ord '\n'` as the
separator `b`): splits into the list of segments between occurrences of
`b`, keeping empty segments, so the result always has one more element
than there are separators. -/
def splitOnByte (b : Nat) : Bytes → List Bytes
  | [] => [[]]
  | c :: rest =>
    match splitOnByte b rest with
    | [] => [[]]
    | s :: ss => if c = b then [] :: s :: ss else (c :: s) :: ss

/-- Embeds Python `segment.rstrip(b"\r")` (`13 = ord '\r'`): removes all
trailing carriage-return bytes. -/
def rstripCR : Bytes → Bytes
  | [] => []
  | a :: as =>
    match rstripCR as with
    | [] => if a = 13 then [] else [a]
    | b :: bs => a :: b :: bs

/-- Embeds Python `line.rstrip(b"\r\n")`: removes all trailing bytes that
are carriage returns or line feeds. -/
def rstripCRLF : Bytes → Bytes
  | [] => []
  | a :: as =>
    match rstripCRLF as with
    | [] => if a = 13 ∨ a = 10 then [] else [a]
    | b :: bs => a :: b :: bs

/-- Embeds iteration over a Python binary file (`for line in file`): the
maximal chunks of the content each ending with a line feed, plus a final
chunk without one when the content does not end in `\n`.  An empty file
yields no lines. -/
def fileLines : Bytes → List Bytes
  | [] => []
  | c :: rest =>
    if c = 10 then [10] :: fileLines rest
    else
      match fileLines rest with
      | [] => [[c]]
      | l :: ls => (c :: l) :: ls

/-- Boolean test that `p` occurs at the start of `l`. -/
def startsWith : Bytes → Bytes → Bool
  | [], _ => true
  | _ :: _, [] => false
  | a :: as, b :: bs => a = b && startsWith as bs

/-- Boolean test that `p` occurs as a contiguous substring of `l`.  Used
to embed, at regex-metacharacter-free patterns, both Python
`re.compile(pattern).search(data)` (a literal regex matches exactly where
the pattern occurs as a substring) and the match test of `grep`. -/
def occursIn (p : Bytes) : Bytes → Bool
  | [] => decide (p = [])
  | c :: rest => startsWith p (c :: rest) || occursIn p rest

/-- The bytes that are metacharacters of Python regular expressions:
`\ . ^ $ * + ? { } [ ] | ( )`.  A pattern avoiding all of them is matched
literally by `re.search` and by `grep`'s basic-regex engine. -/
def regexMetaBytes : List Nat := [92, 46, 94, 36, 42, 43, 63, 123, 125, 91, 93, 124, 40, 41]

/-- A pattern containing no regex metacharacter byte; on such patterns the
embeddings of the regex and grep strategies as substring search are
faithful to the Python code. -/
def isLiteralPattern (p : Bytes) : Bool := p.all (fun c => !(regexMetaBytes.contains c))

/-- The segment a line contributes to `splitOnByte 10`: the line with one
trailing line feed removed when it has one. -/
def stripLastLF (x : Bytes) : Bytes := if x.getLast? = some 10 then x.dropLast else x

/-- The keys the memory-mapped strategies store: the dict comprehension
`{ pattern.rstrip(b"\r"): True for pattern in buffer[:].split(b"\n") }`
of `_low_level_search` / `_high_level_search` ranges over exactly these
byte strings. -/
def mmapLineKeys (content : Bytes) : List Bytes :=
  (splitOnByte 10 content).map rstripCR

/-- The keys `_search_with_brute_force` stores: `line.rstrip(b"\r\n")`
for each line of the buffered line iteration. -/
def bruteLineKeys (content : Bytes) : List Bytes :=
  (fileLines content).map rstripCRLF

/-- Value of `d[k]` without the `defaultdict` insertion side effect:
first binding wins, missing keys give the default `false`. -/
def ddLookup : List (Bytes × Bool) → Bytes → Bool
  | [], _ => false
  | e :: es, k => if e.1 = k then e.2 else ddLookup es k

/-- Whether `k in d` holds. -/
def ddContains : List (Bytes × Bool) → Bytes → Bool
  | [], _ => false
  | e :: es, k => if e.1 = k then true else ddContains es k

/-- Embeds the Python assignment `d[k] = v`: overwrites the existing
binding in place or appends a new one (dicts preserve insertion order). -/
def ddInsert : List (Bytes × Bool) → Bytes → Bool → List (Bytes × Bool)
  | [], k, v => [(k, v)]
  | e :: es, k, v => if e.1 = k then (k, v) :: es else e :: ddInsert es k v

/-- Embeds Python `d.update(m)`: assigns each binding of `m` in order. -/
def ddUpdate (d : List (Bytes × Bool)) (m : List (Bytes × Bool)) : List (Bytes × Bool) :=
  m.foldl (fun acc e => ddInsert acc e.1 e.2) d

/-- Embeds the `defaultdict` subscript `d[k]`: the returned value and the
dictionary afterwards (a missing key is inserted with the default
`False`). -/
def ddGet (d : List (Bytes × Bool)) (k : Bytes) : Bool × List (Bytes × Bool) :=
  if ddContains d k then (ddLookup d k, d) else (false, d ++ [(k, false)])

structure FileLoader where
  /-- `self._reread_on_query` from the configuration. -/
  reread_on_query : Bool
  /-- `self._loaded_data`, the `defaultdict(lambda: False, {})`. -/
  loaded_data : List (Bytes × Bool)
  /-- Whether the `@lru_cache` of `_low_level_search` holds an entry. -/
  low_level_memo : Bool
deriving DecidableEq

/-- Embeds `FileLoader.__init__`: an empty cache and no memoized
`_low_level_search` result. -/
def FileLoader.init (reread : Bool) : FileLoader :=
  { reread_on_query := reread, loaded_data := [], low_level_memo := false }

/-- The `SearchAlgorithm` enumeration of `src/constants.py`. -/
inductive SearchAlgorithm where
  | LOW_LEVEL
  | HIGH_LEVEL
  | BRUTE_FORCE
  | GREP_SEARCH
  | REGEX_SEARCH
deriving DecidableEq

/-- The shared body of `_low_level_search` / `_high_level_search`: open
the file, `mmap` it, split the buffer on `\n`, strip trailing `\r` and
`update` the cache with every segment mapped to `True`.  `mmap.mmap` of
a zero-length file raises `ValueError` (`cannot mmap an empty file`);
`ValueError` is not an `OSError`, so the `except OSError` clause does
not catch it and it escapes — modelled as `Except.error ()`. -/
def mmap_load_body (content : Bytes) (d : List (Bytes × Bool)) :
    Except Unit (List (Bytes × Bool)) :=
  if content.isEmpty then Except.error ()
  else Except.ok (ddUpdate d ((mmapLineKeys content).map (fun k => (k, true))))

/-- Embeds `_low_level_search` including its `@lru_cache(maxsize=None)`:
once a call has succeeded, later calls skip the body and return the
cached object (which is `self._loaded_data` itself).  An escaping
exception is not memoized. -/
def low_level_search (content : Bytes) (st : FileLoader) : Except Unit FileLoader :=
  if st.low_level_memo then Except.ok st
  else
    match mmap_load_body content st.loaded_data with
    | Except.error e => Except.error e
    | Except.ok d => Except.ok { st with loaded_data := d, low_level_memo := true }

/-- Embeds `_high_level_search`: same body as `_low_level_search` but
without any memoization — every call re-reads the file. -/
def high_level_search (content : Bytes) (st : FileLoader) : Except Unit FileLoader :=
  match mmap_load_body content st.loaded_data with
  | Except.error e => Except.error e
  | Except.ok d => Except.ok { st with loaded_data := d }

/-- Embeds `_search_with_brute_force`: the loop
`for line in file: self._loaded_data[line.rstrip(b"\r\n")] = True` is a
left fold of single assignments, i.e. an update with the brute-force
key list.  Reading an empty file runs the loop zero times. -/
def search_with_brute_force (content : Bytes) (st : FileLoader) : FileLoader :=
  { st with
    loaded_data := ddUpdate st.loaded_data ((bruteLineKeys content).map (fun k => (k, true))) }

/-- Embeds `_search_with_regex`: reads the whole file and returns its
bytes (no caching between calls). -/
def search_with_regex (content : Bytes) : Bytes := content

/-- Embeds `_search_with_grep`.  The argument is the outcome of the one
`subprocess.run(['grep', '-q', pattern, self.file_path], ...)` call:
`Except.ok rc` when the process completed with exit status `rc`, and
`Except.error ()` when the invocation raised (tool missing, process
error); the `except Exception` clause maps the latter to `found =
False`.  A completed run is a match iff `returncode == 0`. -/
def search_with_grep (outcome : Except Unit Int) : Bool :=
  match outcome with
  | Except.ok rc => rc == 0
  | Except.error _ => false

/-- Embeds `clear_file_data_from_memory`: only when `self._loaded_data`
is truthy (non-empty) are both the dict and the `lru_cache` of
`_low_level_search` cleared. -/
def clear_file_data_from_memory (st : FileLoader) : FileLoader :=
  if st.loaded_data.isEmpty then st
  else { st with loaded_data := [], low_level_memo := false }

/-- Embeds `bool(re.compile(pattern).search(file_data))` for patterns
free of regex metacharacters: a literal regex matches somewhere in
`data` iff the pattern occurs as a substring. -/
def regex_matches_literal (pattern data : Bytes) : Bool := occursIn pattern data

/-- The `match algorithm` dispatch of `FileLoader.check_text`, applied
to the state `st1` as it is after the optional cache clear.  `content`
is the on-disk file content at the time of this query; `grep` is the
outcome the one grep invocation of this query would have (unused by the
other algorithms).  The returned `Option Bool` is the boolean result,
or `none` when an exception escapes (the mmap `ValueError` on an empty
file, which neither `except OSError` here nor the handler catches).
Note the subscripts `self._low_level_search()[pattern]` etc. mutate the
cache through the `defaultdict` default. -/
def check_text_dispatch (content : Bytes) (grep : Except Unit Int) (pattern : Bytes)
    (algorithm : SearchAlgorithm) (st1 : FileLoader) : Option Bool × FileLoader :=
  match algorithm with
  | SearchAlgorithm.LOW_LEVEL =>
    match low_level_search content st1 with
    | Except.error _ => (none, st1)
    | Except.ok st2 =>
      let r := ddGet st2.loaded_data pattern
      (some r.1, { st2 with loaded_data := r.2 })
  | SearchAlgorithm.HIGH_LEVEL =>
    match high_level_search content st1 with
    | Except.error _ => (none, st1)
    | Except.ok st2 =>
      let r := ddGet st2.loaded_data pattern
      (some r.1, { st2 with loaded_data := r.2 })
  | SearchAlgorithm.BRUTE_FORCE =>
    let st2 := search_with_brute_force content st1
    let r := ddGet st2.loaded_data pattern
    (some r.1, { st2 with loaded_data := r.2 })
  | SearchAlgorithm.GREP_SEARCH => (some (search_with_grep grep), st1)
  | SearchAlgorithm.REGEX_SEARCH =>
    (some (regex_matches_literal pattern (search_with_regex content)), st1)

/-- Embeds `FileLoader.check_text`: clear the caches first when
`self._reread_on_query`, then dispatch on the algorithm. -/
def check_text (content : Bytes) (grep : Except Unit Int) (pattern : Bytes)
    (algorithm : SearchAlgorithm) (st : FileLoader) : Option Bool × FileLoader :=
  check_text_dispatch content grep pattern algorithm
    (if st.reread_on_query then clear_file_data_from_memory st else st)

/-- The outcome of a successful `grep -q pattern file` run for a
literal (metacharacter-free), newline-free pattern: exit status `0`
iff the pattern occurs as a substring of some line, equivalently — for
patterns containing no `\n` byte — of the whole content. -/
def grep_run_literal (pattern content : Bytes) : Except Unit Int :=
  Except.ok (if occursIn pattern content then 0 else 1)

/-- The three strategies that populate `_loaded_data` and answer by
cache lookup; grep and regex do not consult the line cache. -/
def SearchAlgorithm.uses_line_cache : SearchAlgorithm → Bool
  | SearchAlgorithm.LOW_LEVEL => true
  | SearchAlgorithm.HIGH_LEVEL => true
  | SearchAlgorithm.BRUTE_FORCE => true
  | SearchAlgorithm.GREP_SEARCH => false
  | SearchAlgorithm.REGEX_SEARCH => false

/-- The key list a cache-populating strategy loads for a given content. -/
def strategy_line_keys (a : SearchAlgorithm) (content : Bytes) : List Bytes :=
  match a with
  | SearchAlgorithm.BRUTE_FORCE => bruteLineKeys content
  | _ => mmapLineKeys content

/-- The ASCII bytes Python `str.strip()` removes (space and `\t \n \v \f
\r`); the model covers ASCII payloads. -/
def isSpaceByte (b : Nat) : Bool := b == 32 || (9 ≤ b && b ≤ 13)

/-- Embeds `self.request.recv(1024).decode("utf-8").strip()` followed by
`query.encode()`, for payloads of ASCII bytes: strip whitespace bytes
from both ends. -/
def stripBytes (l : Bytes) : Bytes :=
  ((l.dropWhile isSpaceByte).reverse.dropWhile isSpaceByte).reverse

/-- Whether, after consuming the given received payloads, the handler is
still blocked in `recv` with the connection open, or has returned from
`handle` (after which the server tears the connection down). -/
inductive SessionStatus where
  | awaiting
  | closed
deriving DecidableEq

/-- Embeds the `while True` loop of `TcpRequestHandler.handle`.  Each
element of `payloads` is the byte string one `recv(1024)` call returns
(assumed UTF-8-decodable ASCII).  A payload that strips to the empty
query hits `if not query: break`, which ends `handle()` — and with it
the session — leaving the remaining payloads unread.  A non-empty query
is answered through `check_text` with its default algorithm
`GREP_SEARCH` (the handler passes no algorithm), the grep run being
modelled by `grep_run_literal`.  A `none` result models an escaping
exception, which also ends the session. -/
def handle (content : Bytes) : List Bytes → FileLoader →
    List String × FileLoader × SessionStatus
  | [], st => ([], st, SessionStatus.awaiting)
  | payload :: rest, st =>
    if (stripBytes payload).isEmpty then ([], st, SessionStatus.closed)
    else
      match check_text content (grep_run_literal (stripBytes payload) content)
          (stripBytes payload) SearchAlgorithm.GREP_SEARCH st with
      | (some b, st2) =>
        let out := handle content rest st2
        ((if b then "STRING EXISTS\n" else "STRING NOT FOUND\n") :: out.1, out.2)
      | (none, st2) => ([], st2, SessionStatus.closed)

/-- The code points of a string, as a byte-list (all the strings the
model handles are ASCII). -/
def strBytes (s : String) : Bytes := s.toList.map Char.toNat

/-- Python substring test `sub in s`. -/
def str_contains (s sub : String) : Bool := occursIn (strBytes sub) (strBytes s)

/-- The `str(err)` of the `socket.error` CPython raises when binding to
an occupied port (`EADDRINUSE`).  It does not contain `"Port in use"`,
the text `bind_server` looks for. -/
def addr_in_use_msg : String := "[Errno 98] Address already in use"

/-- Result of `TcpServer.bind_server`: either a successful bind or the
`sys.exit(-1)` after the retry budget is exhausted.  `trace` lists the
port of every bind attempt made, in order. -/
inductive BindOutcome where
  | bound (port : Nat) (trace : List Nat)
  | exitedFatal (trace : List Nat)
deriving DecidableEq

/-- The ports attempted, regardless of how the loop ended. -/
def BindOutcome.trace : BindOutcome → List Nat
  | BindOutcome.bound _ t => t
  | BindOutcome.exitedFatal t => t

/-- Embeds the `while True` loop of `TcpServer.bind_server`.
`try_bind n port` is the outcome of the `n`-th attempt to construct
`ThreadedTcpServer` (and TLS-wrap its socket): `none` on success,
`some msg` for a `socket.error` with message `msg`.  `rand_port n` is
what `random.randint(1024, 65535)` would return at attempt `n`.  The
source counts `retry_mechanism` from 0 and exits once it exceeds 5;
`remaining = 6 - retry_mechanism` makes the recursion structural, so
the loop admits up to six attempts.  A new port is drawn only when the
error message contains `"Port in use"`. -/
def bind_server_loop (try_bind : Nat → Nat → Option String) (rand_port : Nat → Nat) :
    Nat → Nat → List Nat → BindOutcome
  | 0, _, trace => BindOutcome.exitedFatal trace
  | remaining + 1, port, trace =>
    match try_bind trace.length port with
    | none => BindOutcome.bound port (trace ++ [port])
    | some msg =>
      bind_server_loop try_bind rand_port remaining
        (if str_contains msg "Port in use" then rand_port trace.length else port)
        (trace ++ [port])

/-- `TcpServer.bind_server` starting at the configured port with
`retry_mechanism = 0`. -/
def bind_server (try_bind : Nat → Nat → Option String) (rand_port : Nat → Nat)
    (port : Nat) : BindOutcome :=
  bind_server_loop try_bind rand_port 6 port []

/-- A bind oracle on which every attempt fails with the real
address-in-use message. -/
def always_addr_in_use (n port : Nat) : Option String := some addr_in_use_msg

/-- A pseudo-random port source that always proposes 2000. -/
def fixed_rand_port (n : Nat) : Nat := 2000

/-- How `TcpServer.__init__` ends: a fatal exit while loading the TLS
credentials, or completion with the outcome of `bind_server`. -/
inductive ServerInitOutcome where
  | exitedCertError
  | ran (b : BindOutcome)
deriving DecidableEq

/-- Embeds `TcpServer.__init__`: `ssl.create_default_context` and
`context.load_cert_chain(...)` run unconditionally — before
`self.bind_server()` is called and regardless of `SSL_ENABLED` (the
flag is only consulted later, when wrapping a bound socket).
`cert_load_ok = false` models a missing certificate or key file
(`FileNotFoundError`), on which the constructor calls `sys.exit(-1)`
before any bind attempt. -/
def tcp_server_init (ssl_enabled cert_load_ok : Bool)
    (try_bind : Nat → Nat → Option String) (rand_port : Nat → Nat) (port : Nat) :
    ServerInitOutcome :=
  if cert_load_ok then ServerInitOutcome.ran (bind_server try_bind rand_port port)
  else ServerInitOutcome.exitedCertError

/-- States in which a memoized `_low_level_search` entry cannot coexist
with an empty dict — true of every state the code can reach, since the
memo is only set together with a populating update and only cleared
together with the dict. -/
def loader_inv (st : FileLoader) : Prop :=
  st.loaded_data = [] → st.low_level_memo = false

/-! ## Theorems: library lemmas about the embedding, followed by the claim theorems -/

theorem splitOnByte_ne_nil (b : Nat) (l : Bytes) : splitOnByte b l ≠ [] := by
  cases l with
  | nil => simp [splitOnByte]
  | cons c rest =>
    simp only [splitOnByte]
    cases h : splitOnByte b rest with
    | nil => simp
    | cons s ss => by_cases hc : c = b <;> simp [hc]

theorem splitOnByte_no_delim (b : Nat) (l : Bytes) :
    ∀ s ∈ splitOnByte b l, b ∉ s := by
  induction l with
  | nil => intro s hs; simp [splitOnByte] at hs; simp [hs]
  | cons c rest ih =>
    intro s hs
    simp only [splitOnByte] at hs
    cases h : splitOnByte b rest with
    | nil => exact absurd h (splitOnByte_ne_nil b rest)
    | cons s0 ss =>
      rw [h] at hs ih
      by_cases hc : c = b
      · simp [hc] at hs
        rcases hs with hs | hs | hs
        · simp [hs]
        · exact ih s (by simp [hs])
        · exact ih s (by simp [hs])
      · simp [hc] at hs
        rcases hs with hs | hs
        · subst hs
          intro hmem
          rcases List.mem_cons.mp hmem with h1 | h1
          · exact hc h1.symm
          · exact ih s0 (by simp) h1
        · exact ih s (by simp [hs])

theorem isInfix_cons_of_isInfix {t l : Bytes} {a : Nat} (h : t <:+: l) :
    t <:+: a :: l := by
  rcases h with ⟨pre, suf, hps⟩
  exact ⟨a :: pre, suf, by simp [hps]⟩

theorem splitOnByte_head_and_mem (b : Nat) (l : Bytes) :
    (∀ s ss, splitOnByte b l = s :: ss → s <+: l) ∧
    (∀ s, s ∈ splitOnByte b l → s <:+: l) := by
  induction l with
  | nil =>
    constructor
    · intro s ss h
      simp [splitOnByte] at h
      simp [h.1]
    · intro s hs
      simp [splitOnByte] at hs
      simp [hs]
  | cons c rest ih =>
    cases h : splitOnByte b rest with
    | nil => exact absurd h (splitOnByte_ne_nil b rest)
    | cons s0 ss0 =>
      have hs0 : s0 <+: rest := ih.1 s0 ss0 h
      have hmem : ∀ s ∈ s0 :: ss0, s <:+: rest := by
        intro s hs; exact ih.2 s (h ▸ hs)
      constructor
      · intro s ss hss
        simp only [splitOnByte, h] at hss
        by_cases hc : c = b
        · simp [hc] at hss
          simp [hss.1]
        · simp [hc] at hss
          rcases hs0 with ⟨t, ht⟩
          rw [← hss.1]
          exact ⟨t, by simp [← ht]⟩
      · intro s hs
        simp only [splitOnByte, h] at hs
        by_cases hc : c = b
        · simp [hc] at hs
          rcases hs with hs | hs | hs
          · simp [hs]
          · rw [hs]; exact isInfix_cons_of_isInfix (hmem s0 (by simp))
          · exact isInfix_cons_of_isInfix (hmem s (by simp [hs]))
        · simp [hc] at hs
          rcases hs with hs | hs
          · rcases hs0 with ⟨t, ht⟩
            rw [hs]
            exact ⟨[], t, by simp [← ht]⟩
          · exact isInfix_cons_of_isInfix (hmem s (by simp [hs]))

theorem mem_splitOnByte_isInfix {b : Nat} {l s : Bytes} (h : s ∈ splitOnByte b l) :
    s <:+: l := (splitOnByte_head_and_mem b l).2 s h

theorem rstripCR_isPre (l : Bytes) : rstripCR l <+: l := by
  induction l with
  | nil => simp [rstripCR]
  | cons a as ih =>
    simp only [rstripCR]
    cases h : rstripCR as with
    | nil =>
      by_cases ha : a = 13
      · rw [if_pos ha]
        exact ⟨a :: as, rfl⟩
      · rw [if_neg ha]
        exact ⟨as, rfl⟩
    | cons b bs =>
      rw [h] at ih
      rcases ih with ⟨t, ht⟩
      exact ⟨t, by simp [← ht]⟩

theorem rstripCR_getLast (l : Bytes) : (rstripCR l).getLast? ≠ some 13 := by
  induction l with
  | nil => simp [rstripCR]
  | cons a as ih =>
    simp only [rstripCR]
    cases h : rstripCR as with
    | nil =>
      by_cases ha : a = 13
      · rw [if_pos ha]; simp
      · rw [if_neg ha]; simp [ha]
    | cons b bs =>
      rw [h] at ih
      rw [List.getLast?_cons_cons]
      exact ih

theorem mem_of_mem_rstripCR {x : Nat} {l : Bytes} (h : x ∈ rstripCR l) : x ∈ l := by
  rcases rstripCR_isPre l with ⟨t, ht⟩
  rw [← ht]
  exact List.mem_append_left t h

theorem rstripCRLF_append_lf {l : Bytes} (h : 10 ∉ l) :
    rstripCRLF (l ++ [10]) = rstripCR l := by
  induction l with
  | nil => simp [rstripCRLF, rstripCR]
  | cons a as ih =>
    have ha : a ≠ 10 := fun hh => h (by simp [hh])
    have h' : 10 ∉ as := fun hh => h (by simp [hh])
    simp only [List.cons_append, rstripCRLF, rstripCR, List.append_eq]
    rw [ih h']
    cases hcase : rstripCR as with
    | nil =>
      by_cases h13 : a = 13
      · simp [h13]
      · simp [h13, ha]
    | cons b bs => rfl

theorem rstripCRLF_eq_rstripCR {l : Bytes} (h : 10 ∉ l) : rstripCRLF l = rstripCR l := by
  induction l with
  | nil => rfl
  | cons a as ih =>
    have ha : a ≠ 10 := fun hh => h (by simp [hh])
    have h' : 10 ∉ as := fun hh => h (by simp [hh])
    simp only [rstripCRLF, rstripCR]
    rw [ih h']
    cases hcase : rstripCR as with
    | nil => by_cases h13 : a = 13 <;> simp [h13, ha]
    | cons b bs => rfl

theorem mem_fileLines_shape (l : Bytes) :
    ∀ x ∈ fileLines l, ∃ seg, 10 ∉ seg ∧ (x = seg ++ [10] ∨ x = seg) := by
  induction l with
  | nil => simp [fileLines]
  | cons c rest ih =>
    intro x hx
    simp only [fileLines] at hx
    by_cases hc : c = 10
    · rw [if_pos hc] at hx
      rcases List.mem_cons.mp hx with h1 | h1
      · exact ⟨[], by simp, Or.inl (by simp [h1, hc])⟩
      · exact ih x h1
    · rw [if_neg hc] at hx
      cases hf : fileLines rest with
      | nil =>
        rw [hf] at hx
        simp at hx
        exact ⟨[c], by simp [Ne.symm hc], Or.inr hx⟩
      | cons l0 ls =>
        rw [hf] at hx
        rcases List.mem_cons.mp hx with h1 | h1
        · rcases ih l0 (by rw [hf]; simp) with ⟨seg, hseg, hor⟩
          refine ⟨c :: seg, ?_, ?_⟩
          · intro hm
            rcases List.mem_cons.mp hm with hh | hh
            · exact hc hh.symm
            · exact hseg hh
          · rcases hor with hor | hor
            · exact Or.inl (by simp [h1, hor])
            · exact Or.inr (by simp [h1, hor])
        · exact ih x (by rw [hf]; simp [h1])

theorem fileLines_eq_nil_iff (l : Bytes) : fileLines l = [] ↔ l = [] := by
  cases l with
  | nil => simp [fileLines]
  | cons c rest =>
    simp only [fileLines]
    by_cases hc : c = 10
    · simp [hc]
    · rw [if_neg hc]
      cases hf : fileLines rest <;> simp

theorem mem_fileLines_ne_nil (l : Bytes) : ∀ x ∈ fileLines l, x ≠ [] := by
  induction l with
  | nil => simp [fileLines]
  | cons c rest ih =>
    intro x hx
    simp only [fileLines] at hx
    by_cases hc : c = 10
    · rw [if_pos hc] at hx
      rcases List.mem_cons.mp hx with h1 | h1
      · simp [h1]
      · exact ih x h1
    · rw [if_neg hc] at hx
      cases hf : fileLines rest with
      | nil =>
        rw [hf] at hx
        simp at hx
        simp [hx]
      | cons l0 ls =>
        rw [hf] at hx
        rcases List.mem_cons.mp hx with h1 | h1
        · simp [h1]
        · exact ih x (by rw [hf]; simp [h1])

theorem mem_of_getLast?_eq {l : List Nat} {a : Nat} (h : l.getLast? = some a) : a ∈ l := by
  induction l with
  | nil => simp at h
  | cons c rest ih =>
    cases rest with
    | nil => simp at h; simp [h]
    | cons r rs =>
      rw [List.getLast?_cons_cons] at h
      exact List.mem_cons_of_mem c (ih h)

theorem lfCond_cons {c : Nat} {rest : Bytes} (h : rest ≠ []) :
    ((c :: rest).getLast? = some 10 ∨ c :: rest = []) ↔
      (rest.getLast? = some 10 ∨ rest = []) := by
  cases rest with
  | nil => exact absurd rfl h
  | cons r rs => simp [List.getLast?_cons_cons]

theorem splitOnByte_eq_fileLines (l : Bytes) :
    splitOnByte 10 l =
      (fileLines l).map stripLastLF ++
        (if l.getLast? = some 10 ∨ l = [] then [[]] else []) := by
  induction l with
  | nil => simp [splitOnByte, fileLines]
  | cons c rest ih =>
    by_cases hc : c = 10
    · subst hc
      have hfl : fileLines (10 :: rest) = [10] :: fileLines rest := by
        simp [fileLines]
      rw [hfl]
      have hsl : stripLastLF [10] = [] := by simp [stripLastLF]
      have hcond : ((10 :: rest).getLast? = some 10 ∨ (10 : Nat) :: rest = []) ↔
          (rest.getLast? = some 10 ∨ rest = []) := by
        cases rest with
        | nil => simp
        | cons r rs => simp [List.getLast?_cons_cons]
      simp only [List.map_cons, hsl]
      rw [if_congr hcond rfl rfl]
      have lhs : splitOnByte 10 (10 :: rest) = [] :: splitOnByte 10 rest := by
        simp only [splitOnByte]
        cases hsp : splitOnByte 10 rest with
        | nil => exact absurd hsp (splitOnByte_ne_nil 10 rest)
        | cons s ss => simp
      rw [lhs, ih]
      simp
    · cases hf : fileLines rest with
      | nil =>
        have hrest : rest = [] := (fileLines_eq_nil_iff rest).mp hf
        subst hrest
        have h1 : splitOnByte 10 [c] = [[c]] := by
          simp [splitOnByte, hc]
        have h2 : fileLines [c] = [[c]] := by
          simp [fileLines, hc]
        rw [h1, h2]
        have h3 : stripLastLF [c] = [c] := by
          simp [stripLastLF, hc]
        simp [h3, hc]
      | cons l0 ls =>
        have hrest : rest ≠ [] := by
          intro hh
          rw [hh] at hf
          simp [fileLines] at hf
        have hl0 : l0 ≠ [] := mem_fileLines_ne_nil rest l0 (by rw [hf]; simp)
        have hfl : fileLines (c :: rest) = (c :: l0) :: ls := by
          simp only [fileLines, hf]
          rw [if_neg hc]
        have hihs : splitOnByte 10 rest =
            stripLastLF l0 :: (ls.map stripLastLF ++
              (if rest.getLast? = some 10 ∨ rest = [] then [[]] else [])) := by
          rw [ih, hf]
          simp
        have hsp : splitOnByte 10 (c :: rest) =
            (c :: stripLastLF l0) :: (ls.map stripLastLF ++
              (if rest.getLast? = some 10 ∨ rest = [] then [[]] else [])) := by
          simp only [splitOnByte]
          rw [hihs]
          simp [hc]
        have hstrip : stripLastLF (c :: l0) = c :: stripLastLF l0 := by
          cases l0 with
          | nil => exact absurd rfl hl0
          | cons x xs =>
            unfold stripLastLF
            rw [List.getLast?_cons_cons]
            by_cases hg : (x :: xs).getLast? = some 10
            · rw [if_pos hg, if_pos hg]
              rfl
            · rw [if_neg hg, if_neg hg]
        rw [hsp, hfl]
        simp only [List.map_cons, hstrip, List.cons_append]
        rw [if_congr (lfCond_cons hrest) rfl rfl]

theorem mmapLineKeys_eq_bruteLineKeys (l : Bytes) :
    mmapLineKeys l = bruteLineKeys l ++
      (if l.getLast? = some 10 ∨ l = [] then [[]] else []) := by
  unfold mmapLineKeys bruteLineKeys
  rw [splitOnByte_eq_fileLines, List.map_append, List.map_map]
  congr 1
  · apply List.map_congr_left
    intro x hx
    rcases mem_fileLines_shape l x hx with ⟨seg, hseg, hor | hor⟩
    · subst hor
      have h1 : stripLastLF (seg ++ [10]) = seg := by
        unfold stripLastLF
        rw [if_pos (by simp)]
        simp
      simp only [Function.comp_apply, h1]
      rw [rstripCRLF_append_lf hseg]
    · subst hor
      have h1 : stripLastLF x = x := by
        unfold stripLastLF
        cases hh : x.getLast? with
        | none => simp
        | some a =>
          have ha : a ≠ 10 := fun h10 => hseg (h10 ▸ mem_of_getLast?_eq hh)
          rw [if_neg (by simp [ha])]
      simp only [Function.comp_apply, h1]
      rw [rstripCRLF_eq_rstripCR hseg]
  · by_cases hcond : l.getLast? = some 10 ∨ l = [] <;> simp [hcond, rstripCR]

theorem mem_bruteLineKeys_mem_mmap {l k : Bytes} (h : k ∈ bruteLineKeys l) :
    k ∈ mmapLineKeys l := by
  rw [mmapLineKeys_eq_bruteLineKeys]
  exact List.mem_append_left _ h

theorem mem_bruteLineKeys_iff_of_ne_nil {l k : Bytes} (hk : k ≠ []) :
    k ∈ bruteLineKeys l ↔ k ∈ mmapLineKeys l := by
  rw [mmapLineKeys_eq_bruteLineKeys]
  constructor
  · exact List.mem_append_left _
  · intro h
    rcases List.mem_append.mp h with h | h
    · exact h
    · exfalso
      by_cases hcond : l.getLast? = some 10 ∨ l = [] <;> simp [hcond] at h
      exact hk h

theorem mem_mmapLineKeys_no_lf {l k : Bytes} (h : k ∈ mmapLineKeys l) : 10 ∉ k := by
  unfold mmapLineKeys at h
  rcases List.mem_map.mp h with ⟨s, hs, hk⟩
  intro hmem
  rw [← hk] at hmem
  exact splitOnByte_no_delim 10 l s hs (mem_of_mem_rstripCR hmem)

theorem mem_mmapLineKeys_getLast {l k : Bytes} (h : k ∈ mmapLineKeys l) :
    k.getLast? ≠ some 13 := by
  unfold mmapLineKeys at h
  rcases List.mem_map.mp h with ⟨s, _, hk⟩
  rw [← hk]
  exact rstripCR_getLast s

theorem mem_mmapLineKeys_isInfix {l k : Bytes} (h : k ∈ mmapLineKeys l) :
    k <:+: l := by
  unfold mmapLineKeys at h
  rcases List.mem_map.mp h with ⟨s, hs, hk⟩
  have h1 : k <+: s := hk ▸ rstripCR_isPre s
  exact h1.isInfix.trans (mem_splitOnByte_isInfix hs)

theorem startsWith_iff (p l : Bytes) : startsWith p l = true ↔ p <+: l := by
  induction p generalizing l with
  | nil => simp [startsWith]
  | cons a as ih =>
    cases l with
    | nil => simp [startsWith]
    | cons b bs =>
      simp only [startsWith, Bool.and_eq_true, decide_eq_true_eq, ih]
      rw [List.cons_prefix_cons]

theorem occursIn_iff (p l : Bytes) : occursIn p l = true ↔ p <:+: l := by
  induction l with
  | nil => simp [occursIn]
  | cons c rest ih =>
    simp only [occursIn, Bool.or_eq_true, startsWith_iff, ih]
    exact (List.infix_cons_iff).symm

theorem ddLookup_ddInsert (d : List (Bytes × Bool)) (k : Bytes) (v : Bool) (q : Bytes) :
    ddLookup (ddInsert d k v) q = if q = k then v else ddLookup d q := by
  induction d with
  | nil =>
    by_cases hq : q = k
    · subst hq
      simp [ddInsert, ddLookup]
    · have h1 : ¬ k = q := fun h => hq h.symm
      simp only [ddInsert, ddLookup]
      rw [if_neg h1, if_neg hq]
  | cons e es ih =>
    by_cases he : e.1 = k
    · simp only [ddInsert, if_pos he, ddLookup]
      by_cases hq : q = k
      · subst hq
        simp
      · have h1 : ¬ k = q := fun h => hq h.symm
        have h2 : ¬ e.1 = q := by rw [he]; exact h1
        rw [if_neg h1, if_neg hq, if_neg h2]
    · simp only [ddInsert, if_neg he, ddLookup]
      by_cases hq2 : e.1 = q
      · have hqk : ¬ q = k := fun h => he (by rw [hq2, h])
        rw [if_pos hq2, if_neg hqk, if_pos hq2]
      · rw [if_neg hq2, if_neg hq2, ih]

theorem ddContains_ddInsert (d : List (Bytes × Bool)) (k : Bytes) (v : Bool) (q : Bytes) :
    ddContains (ddInsert d k v) q = (decide (q = k) || ddContains d q) := by
  induction d with
  | nil =>
    by_cases hq : q = k
    · subst hq
      simp [ddInsert, ddContains]
    · have h1 : ¬ k = q := fun h => hq h.symm
      simp [ddInsert, ddContains, hq, h1]
  | cons e es ih =>
    by_cases he : e.1 = k
    · by_cases hq : q = k
      · subst hq
        simp [ddInsert, ddContains, he]
      · have h1 : ¬ k = q := fun h => hq h.symm
        have h2 : ¬ e.1 = q := by rw [he]; exact h1
        simp [ddInsert, ddContains, he, h1, h2, hq]
    · simp only [ddInsert, if_neg he, ddContains]
      by_cases hq2 : e.1 = q
      · have hqk : ¬ q = k := fun h => he (by rw [hq2, h])
        simp [hq2, hqk]
      · rw [if_neg hq2, if_neg hq2, ih]

theorem ddLookup_ddUpdate_trueKeys (ks : List Bytes) (d : List (Bytes × Bool)) (q : Bytes) :
    ddLookup (ddUpdate d (ks.map (fun k => (k, true)))) q
      = (decide (q ∈ ks) || ddLookup d q) := by
  induction ks generalizing d with
  | nil => simp [ddUpdate]
  | cons k ks ih =>
    simp only [List.map_cons, ddUpdate, List.foldl_cons]
    rw [show (List.foldl (fun acc e => ddInsert acc e.1 e.2) (ddInsert d k true)
        (ks.map (fun k => (k, true)))) = ddUpdate (ddInsert d k true)
        (ks.map (fun k => (k, true))) from rfl]
    rw [ih, ddLookup_ddInsert]
    by_cases hq : q ∈ ks
    · simp [hq]
    · by_cases hk : q = k <;> simp [hq, hk]

theorem ddContains_ddUpdate_trueKeys (ks : List Bytes) (d : List (Bytes × Bool)) (q : Bytes) :
    ddContains (ddUpdate d (ks.map (fun k => (k, true)))) q
      = (decide (q ∈ ks) || ddContains d q) := by
  induction ks generalizing d with
  | nil => simp [ddUpdate]
  | cons k ks ih =>
    simp only [List.map_cons, ddUpdate, List.foldl_cons]
    rw [show (List.foldl (fun acc e => ddInsert acc e.1 e.2) (ddInsert d k true)
        (ks.map (fun k => (k, true)))) = ddUpdate (ddInsert d k true)
        (ks.map (fun k => (k, true))) from rfl]
    rw [ih, ddContains_ddInsert]
    by_cases hq : q ∈ ks
    · simp [hq]
    · by_cases hk : q = k <;> simp [hq, hk]

theorem ddLookup_append_single_false (d : List (Bytes × Bool)) (k q : Bytes) :
    ddLookup (d ++ [(k, false)]) q = ddLookup d q := by
  induction d with
  | nil =>
    simp only [List.nil_append, ddLookup]
    by_cases hq : k = q <;> simp [hq]
  | cons e es ih =>
    simp only [List.cons_append, List.append_eq, ddLookup]
    by_cases he : e.1 = q
    · simp [he]
    · rw [if_neg he, if_neg he, ih]

theorem ddLookup_ddGet_snd (d : List (Bytes × Bool)) (k q : Bytes) :
    ddLookup (ddGet d k).2 q = ddLookup d q := by
  unfold ddGet
  by_cases hc : ddContains d k
  · simp [hc]
  · rw [if_neg hc]
    exact ddLookup_append_single_false d k q

theorem ddLookup_eq_false_of_not_contains {d : List (Bytes × Bool)} {k : Bytes}
    (h : ddContains d k = false) : ddLookup d k = false := by
  induction d with
  | nil => rfl
  | cons e es ih =>
    simp only [ddContains] at h
    simp only [ddLookup]
    by_cases he : e.1 = k
    · rw [if_pos he] at h
      simp at h
    · rw [if_neg he] at h ⊢
      exact ih h

theorem ddGet_fst (d : List (Bytes × Bool)) (k : Bytes) :
    (ddGet d k).1 = ddLookup d k := by
  unfold ddGet
  by_cases hc : ddContains d k
  · simp [hc]
  · have hf : ddContains d k = false := by
      cases hcc : ddContains d k
      · rfl
      · exact absurd hcc hc
    rw [if_neg hc]
    exact (ddLookup_eq_false_of_not_contains hf).symm

theorem ddContains_append_single (d : List (Bytes × Bool)) (k : Bytes) :
    ddContains (d ++ [(k, false)]) k = true := by
  induction d with
  | nil => simp [ddContains]
  | cons e es ih =>
    simp only [List.cons_append, List.append_eq, ddContains]
    by_cases he : e.1 = k
    · simp [he]
    · rw [if_neg he]
      exact ih

theorem ddContains_ddGet_self (d : List (Bytes × Bool)) (k : Bytes) :
    ddContains (ddGet d k).2 k = true := by
  unfold ddGet
  by_cases hc : ddContains d k
  · rw [if_pos hc]
    exact hc
  · rw [if_neg hc]
    exact ddContains_append_single d k

theorem ddGet_snd_of_contains {d : List (Bytes × Bool)} {k : Bytes}
    (h : ddContains d k = true) : (ddGet d k).2 = d := by
  unfold ddGet
  rw [if_pos h]

theorem mem_ddGet_snd_of_not_contains {d : List (Bytes × Bool)} {k : Bytes}
    (h : ddContains d k = false) : (k, false) ∈ (ddGet d k).2 := by
  unfold ddGet
  rw [if_neg (by simp [h])]
  simp

theorem ddInsert_ne_nil (d : List (Bytes × Bool)) (k : Bytes) (v : Bool) :
    ddInsert d k v ≠ [] := by
  cases d with
  | nil => simp [ddInsert]
  | cons e es =>
    simp only [ddInsert]
    by_cases he : e.1 = k <;> simp [he]

theorem ddUpdate_ne_nil_of_ne_nil (d : List (Bytes × Bool)) (m : List (Bytes × Bool))
    (h : m ≠ []) : ddUpdate d m ≠ [] := by
  cases m with
  | nil => exact absurd rfl h
  | cons e es =>
    simp only [ddUpdate, List.foldl_cons]
    clear h
    induction es generalizing d e with
    | nil => exact ddInsert_ne_nil d e.1 e.2
    | cons f fs ih =>
      simp only [List.foldl_cons]
      exact ih (ddInsert d e.1 e.2) f

theorem ddGet_snd_ne_nil (d : List (Bytes × Bool)) (k : Bytes) :
    d ≠ [] → (ddGet d k).2 ≠ [] := by
  intro h
  unfold ddGet
  by_cases hc : ddContains d k
  · rw [if_pos hc]
    exact h
  · rw [if_neg hc]
    simp

theorem clear_of_nil {st : FileLoader} (h : st.loaded_data = []) :
    clear_file_data_from_memory st = st := by
  unfold clear_file_data_from_memory
  rw [if_pos (by simp [h])]

theorem st1_eq_self_of_clean {st : FileLoader} (h : st.loaded_data = []) :
    (if st.reread_on_query then clear_file_data_from_memory st else st) = st := by
  by_cases hr : st.reread_on_query <;> simp [hr, clear_of_nil h]

theorem low_level_search_run {content : Bytes} {st : FileLoader}
    (h2 : st.low_level_memo = false) (hne : content.isEmpty = false) :
    low_level_search content st =
      Except.ok { st with
        loaded_data := ddUpdate st.loaded_data ((mmapLineKeys content).map (fun k => (k, true))),
        low_level_memo := true } := by
  unfold low_level_search mmap_load_body
  rw [if_neg (by simp [h2]), if_neg (by simp [hne])]

theorem low_level_search_err {content : Bytes} {st : FileLoader}
    (h2 : st.low_level_memo = false) (hne : content.isEmpty = true) :
    low_level_search content st = Except.error () := by
  unfold low_level_search mmap_load_body
  rw [if_neg (by simp [h2]), if_pos (by simp [hne])]

theorem low_level_search_memo {content : Bytes} {st : FileLoader}
    (h2 : st.low_level_memo = true) :
    low_level_search content st = Except.ok st := by
  unfold low_level_search
  rw [if_pos (by simp [h2])]

theorem high_level_search_run {content : Bytes} {st : FileLoader}
    (hne : content.isEmpty = false) :
    high_level_search content st =
      Except.ok { st with
        loaded_data := ddUpdate st.loaded_data ((mmapLineKeys content).map (fun k => (k, true))) } := by
  unfold high_level_search mmap_load_body
  rw [if_neg (by simp [hne])]

theorem high_level_search_err {content : Bytes} {st : FileLoader}
    (hne : content.isEmpty = true) :
    high_level_search content st = Except.error () := by
  unfold high_level_search mmap_load_body
  rw [if_pos (by simp [hne])]

theorem dispatch_low (content : Bytes) (g : Except Unit Int) (p : Bytes) (st : FileLoader)
    (h2 : st.low_level_memo = false) (hne : content.isEmpty = false) :
    check_text_dispatch content g p SearchAlgorithm.LOW_LEVEL st =
      (some (decide (p ∈ mmapLineKeys content) || ddLookup st.loaded_data p),
       { st with
         loaded_data := (ddGet (ddUpdate st.loaded_data
           ((mmapLineKeys content).map (fun k => (k, true)))) p).2,
         low_level_memo := true }) := by
  unfold check_text_dispatch
  rw [low_level_search_run h2 hne]
  simp [ddGet_fst, ddLookup_ddUpdate_trueKeys]

theorem dispatch_low_err (content : Bytes) (g : Except Unit Int) (p : Bytes) (st : FileLoader)
    (h2 : st.low_level_memo = false) (hne : content.isEmpty = true) :
    check_text_dispatch content g p SearchAlgorithm.LOW_LEVEL st = (none, st) := by
  unfold check_text_dispatch
  rw [low_level_search_err h2 hne]

theorem dispatch_low_memo (content : Bytes) (g : Except Unit Int) (p : Bytes) (st : FileLoader)
    (h2 : st.low_level_memo = true) :
    check_text_dispatch content g p SearchAlgorithm.LOW_LEVEL st =
      (some (ddLookup st.loaded_data p),
       { st with loaded_data := (ddGet st.loaded_data p).2 }) := by
  unfold check_text_dispatch
  rw [low_level_search_memo h2]
  simp [ddGet_fst]

theorem dispatch_high (content : Bytes) (g : Except Unit Int) (p : Bytes) (st : FileLoader)
    (hne : content.isEmpty = false) :
    check_text_dispatch content g p SearchAlgorithm.HIGH_LEVEL st =
      (some (decide (p ∈ mmapLineKeys content) || ddLookup st.loaded_data p),
       { st with
         loaded_data := (ddGet (ddUpdate st.loaded_data
           ((mmapLineKeys content).map (fun k => (k, true)))) p).2 }) := by
  unfold check_text_dispatch
  rw [high_level_search_run hne]
  simp [ddGet_fst, ddLookup_ddUpdate_trueKeys]

theorem dispatch_high_err (content : Bytes) (g : Except Unit Int) (p : Bytes) (st : FileLoader)
    (hne : content.isEmpty = true) :
    check_text_dispatch content g p SearchAlgorithm.HIGH_LEVEL st = (none, st) := by
  unfold check_text_dispatch
  rw [high_level_search_err hne]

theorem dispatch_brute (content : Bytes) (g : Except Unit Int) (p : Bytes) (st : FileLoader) :
    check_text_dispatch content g p SearchAlgorithm.BRUTE_FORCE st =
      (some (decide (p ∈ bruteLineKeys content) || ddLookup st.loaded_data p),
       { st with
         loaded_data := (ddGet (ddUpdate st.loaded_data
           ((bruteLineKeys content).map (fun k => (k, true)))) p).2 }) := by
  unfold check_text_dispatch search_with_brute_force
  simp [ddGet_fst, ddLookup_ddUpdate_trueKeys]

theorem dispatch_grep (content : Bytes) (g : Except Unit Int) (p : Bytes) (st : FileLoader) :
    check_text_dispatch content g p SearchAlgorithm.GREP_SEARCH st =
      (some (search_with_grep g), st) := rfl

theorem dispatch_regex (content : Bytes) (g : Except Unit Int) (p : Bytes) (st : FileLoader) :
    check_text_dispatch content g p SearchAlgorithm.REGEX_SEARCH st =
      (some (occursIn p content), st) := rfl

theorem bool_eq_false_of_not {b : Bool} (h : ¬ b = true) : b = false := by
  cases b
  · rfl
  · exact absurd rfl h

theorem low_level_search_cases (c : Bytes) (st : FileLoader) :
    low_level_search c st = Except.error () ∨
    (low_level_search c st = Except.ok st ∧ st.low_level_memo = true) ∨
    (c.isEmpty = false ∧ low_level_search c st =
      Except.ok { st with
        loaded_data := ddUpdate st.loaded_data ((mmapLineKeys c).map (fun k => (k, true))),
        low_level_memo := true }) := by
  by_cases hm : st.low_level_memo
  · exact Or.inr (Or.inl ⟨low_level_search_memo hm, hm⟩)
  · have hm' : st.low_level_memo = false := bool_eq_false_of_not hm
    by_cases he : c.isEmpty
    · exact Or.inl (low_level_search_err hm' he)
    · have he' : c.isEmpty = false := bool_eq_false_of_not he
      exact Or.inr (Or.inr ⟨he', low_level_search_run hm' he'⟩)

theorem high_level_search_cases (c : Bytes) (st : FileLoader) :
    high_level_search c st = Except.error () ∨
    (c.isEmpty = false ∧ high_level_search c st =
      Except.ok { st with
        loaded_data := ddUpdate st.loaded_data ((mmapLineKeys c).map (fun k => (k, true))) }) := by
  by_cases he : c.isEmpty
  · exact Or.inl (high_level_search_err he)
  · have he' : c.isEmpty = false := bool_eq_false_of_not he
    exact Or.inr ⟨he', high_level_search_run he'⟩

theorem ddGet_snd_never_nil (d : List (Bytes × Bool)) (k : Bytes) :
    (ddGet d k).2 ≠ [] := by
  by_cases hc : ddContains d k
  · rw [ddGet_snd_of_contains hc]
    intro hnil
    rw [hnil] at hc
    simp [ddContains] at hc
  · unfold ddGet
    rw [if_neg hc]
    simp

theorem dispatch_inv (c : Bytes) (g : Except Unit Int) (p : Bytes) (a : SearchAlgorithm)
    (st1 : FileLoader) (h : loader_inv st1) :
    loader_inv (check_text_dispatch c g p a st1).2 := by
  cases a with
  | LOW_LEVEL =>
    rcases low_level_search_cases c st1 with hcase | ⟨hcase, _⟩ | ⟨_, hcase⟩ <;>
      (unfold check_text_dispatch; rw [hcase])
    · exact h
    · intro hnil
      exact absurd hnil (ddGet_snd_never_nil st1.loaded_data p)
    · intro hnil
      exact absurd hnil (ddGet_snd_never_nil _ p)
  | HIGH_LEVEL =>
    rcases high_level_search_cases c st1 with hcase | ⟨_, hcase⟩ <;>
      (unfold check_text_dispatch; rw [hcase])
    · exact h
    · intro hnil
      exact absurd hnil (ddGet_snd_never_nil _ p)
  | BRUTE_FORCE =>
    intro hnil
    exact absurd hnil (ddGet_snd_never_nil _ p)
  | GREP_SEARCH => exact h
  | REGEX_SEARCH => exact h

theorem dispatch_reread (c : Bytes) (g : Except Unit Int) (p : Bytes) (a : SearchAlgorithm)
    (st1 : FileLoader) :
    (check_text_dispatch c g p a st1).2.reread_on_query = st1.reread_on_query := by
  cases a with
  | LOW_LEVEL =>
    rcases low_level_search_cases c st1 with hcase | ⟨hcase, _⟩ | ⟨_, hcase⟩ <;>
      (unfold check_text_dispatch; rw [hcase])
  | HIGH_LEVEL =>
    rcases high_level_search_cases c st1 with hcase | ⟨_, hcase⟩ <;>
      (unfold check_text_dispatch; rw [hcase])
  | BRUTE_FORCE => rfl
  | GREP_SEARCH => rfl
  | REGEX_SEARCH => rfl

theorem clear_state_or (st : FileLoader) :
    (if st.reread_on_query then clear_file_data_from_memory st else st) = st ∨
    (if st.reread_on_query then clear_file_data_from_memory st else st) =
      { st with loaded_data := [], low_level_memo := false } := by
  by_cases hr : st.reread_on_query
  · rw [if_pos hr]
    unfold clear_file_data_from_memory
    by_cases hd : st.loaded_data.isEmpty
    · exact Or.inl (if_pos hd)
    · exact Or.inr (if_neg hd)
  · exact Or.inl (if_neg hr)

theorem check_text_inv (c : Bytes) (g : Except Unit Int) (p : Bytes) (a : SearchAlgorithm)
    (st : FileLoader) (h : loader_inv st) :
    loader_inv (check_text c g p a st).2 := by
  unfold check_text
  apply dispatch_inv
  rcases clear_state_or st with hcl | hcl <;> rw [hcl]
  · exact h
  · intro _
    rfl

theorem check_text_reread (c : Bytes) (g : Except Unit Int) (p : Bytes) (a : SearchAlgorithm)
    (st : FileLoader) :
    (check_text c g p a st).2.reread_on_query = st.reread_on_query := by
  unfold check_text
  rw [dispatch_reread]
  rcases clear_state_or st with hcl | hcl <;> rw [hcl]

theorem st1_clear_eq_init {st : FileLoader} (hr : st.reread_on_query = true)
    (hinv : loader_inv st) :
    (if st.reread_on_query then clear_file_data_from_memory st else st) =
      FileLoader.init true := by
  rw [if_pos hr]
  unfold clear_file_data_from_memory
  by_cases hd : st.loaded_data.isEmpty
  · rw [if_pos hd]
    have h1 : st.loaded_data = [] := by simpa using hd
    have h2 : st.low_level_memo = false := hinv h1
    cases st
    simp_all [FileLoader.init]
  · rw [if_neg hd]
    cases st
    simp_all [FileLoader.init]

theorem check_text_fresh_under_reread (c : Bytes) (g : Except Unit Int) (p : Bytes)
    (a : SearchAlgorithm) (st : FileLoader)
    (hr : st.reread_on_query = true) (hinv : loader_inv st) :
    check_text c g p a st = check_text c g p a (FileLoader.init true) := by
  unfold check_text
  rw [st1_clear_eq_init hr hinv]
  rw [@st1_clear_eq_init (FileLoader.init true) rfl (fun _ => rfl)]

theorem check_text_init_low (content : Bytes) (g : Except Unit Int) (p : Bytes)
    (reread : Bool) (hne : content.isEmpty = false) :
    check_text content g p SearchAlgorithm.LOW_LEVEL (FileLoader.init reread) =
      (some (decide (p ∈ mmapLineKeys content)),
       { reread_on_query := reread,
         loaded_data := (ddGet (ddUpdate []
           ((mmapLineKeys content).map (fun k => (k, true)))) p).2,
         low_level_memo := true }) := by
  unfold check_text
  rw [st1_eq_self_of_clean rfl, dispatch_low content g p _ rfl hne]
  simp [FileLoader.init, ddLookup]

theorem check_text_init_high (content : Bytes) (g : Except Unit Int) (p : Bytes)
    (reread : Bool) (hne : content.isEmpty = false) :
    check_text content g p SearchAlgorithm.HIGH_LEVEL (FileLoader.init reread) =
      (some (decide (p ∈ mmapLineKeys content)),
       { reread_on_query := reread,
         loaded_data := (ddGet (ddUpdate []
           ((mmapLineKeys content).map (fun k => (k, true)))) p).2,
         low_level_memo := false }) := by
  unfold check_text
  rw [st1_eq_self_of_clean rfl, dispatch_high content g p _ hne]
  simp [FileLoader.init, ddLookup]

theorem check_text_init_brute (content : Bytes) (g : Except Unit Int) (p : Bytes)
    (reread : Bool) :
    check_text content g p SearchAlgorithm.BRUTE_FORCE (FileLoader.init reread) =
      (some (decide (p ∈ bruteLineKeys content)),
       { reread_on_query := reread,
         loaded_data := (ddGet (ddUpdate []
           ((bruteLineKeys content).map (fun k => (k, true)))) p).2,
         low_level_memo := false }) := by
  unfold check_text
  rw [st1_eq_self_of_clean rfl, dispatch_brute content g p _]
  simp [FileLoader.init, ddLookup]

theorem check_text_init_cache_fst (content : Bytes) (g : Except Unit Int) (p : Bytes)
    (reread : Bool) (a : SearchAlgorithm)
    (ha : a.uses_line_cache = true) (hne : content.isEmpty = false) :
    (check_text content g p a (FileLoader.init reread)).1 =
      some (decide (p ∈ strategy_line_keys a content)) := by
  cases a with
  | LOW_LEVEL =>
    rw [check_text_init_low content g p reread hne]
    rfl
  | HIGH_LEVEL =>
    rw [check_text_init_high content g p reread hne]
    rfl
  | BRUTE_FORCE =>
    rw [check_text_init_brute content g p reread]
    rfl
  | GREP_SEARCH => simp [SearchAlgorithm.uses_line_cache] at ha
  | REGEX_SEARCH => simp [SearchAlgorithm.uses_line_cache] at ha

theorem search_with_grep_run (p content : Bytes) :
    search_with_grep (grep_run_literal p content) = occursIn p content := by
  unfold search_with_grep grep_run_literal
  by_cases h : occursIn p content <;> simp [h]

theorem check_text_grep_fst (content : Bytes) (g : Except Unit Int) (p : Bytes)
    (st : FileLoader) :
    (check_text content g p SearchAlgorithm.GREP_SEARCH st).1 =
      some (search_with_grep g) := by
  unfold check_text
  rw [dispatch_grep]

theorem check_text_regex_fst (content : Bytes) (g : Except Unit Int) (p : Bytes)
    (st : FileLoader) :
    (check_text content g p SearchAlgorithm.REGEX_SEARCH st).1 =
      some (occursIn p content) := by
  unfold check_text
  rw [dispatch_regex]

/-- C6: external-tool strategy error containment — for every pattern,
`check_text` with the external-tool-scan algorithm (`GREP_SEARCH`)
returns true iff the external tool's exit status indicates a match
(`returncode == 0`), and every invocation failure yields the result
`false` rather than a propagated exception (the result is always
`some _`, never an escaping error). -/
theorem check_text_grep_error_containment (content p : Bytes) (g : Except Unit Int)
    (st : FileLoader) :
    (check_text content g p SearchAlgorithm.GREP_SEARCH st).1 = some (search_with_grep g) ∧
    ((check_text content g p SearchAlgorithm.GREP_SEARCH st).1 = some true ↔ g = Except.ok 0) ∧
    (∀ e : Unit, search_with_grep (Except.error e) = false) := by
  have h1 : (check_text content g p SearchAlgorithm.GREP_SEARCH st).1 =
      some (search_with_grep g) := check_text_grep_fst content g p st
  refine ⟨h1, ?_, fun e => rfl⟩
  rw [h1]
  cases g with
  | error e => simp [search_with_grep]
  | ok rc => simp [search_with_grep]

/-- C8: constructing the TCP server always loads the TLS
certificate/key pair, even when the TLS-enabled flag is false; if the
certificate or key file is missing (`cert_load_ok = false`), the
process exits fatally before any bind attempt, regardless of whether
TLS was requested — and the constructor's outcome never depends on the
TLS flag at all. -/
theorem tcp_server_init_cert_load_unconditional (ssl_enabled : Bool)
    (try_bind : Nat → Nat → Option String) (rand_port : Nat → Nat) (port : Nat) :
    tcp_server_init ssl_enabled false try_bind rand_port port =
      ServerInitOutcome.exitedCertError ∧
    (∀ ok : Bool, tcp_server_init true ok try_bind rand_port port =
      tcp_server_init false ok try_bind rand_port port) := by
  exact ⟨rfl, fun ok => rfl⟩

/-- C10: on an empty (zero-byte) target file, `check_text` with either
memory-mapped strategy raises an uncaught error — `mmap` rejects an
empty file with a `ValueError` the `except OSError` branches do not
catch, modelled as the result `none` — instead of returning a boolean
or exiting cleanly, whereas the brute-force strategy returns `false`
for any pattern. -/
theorem check_text_empty_file (p : Bytes) (g : Except Unit Int) (reread : Bool) :
    (check_text [] g p SearchAlgorithm.LOW_LEVEL (FileLoader.init reread)).1 = none ∧
    (check_text [] g p SearchAlgorithm.HIGH_LEVEL (FileLoader.init reread)).1 = none ∧
    (check_text [] g p SearchAlgorithm.BRUTE_FORCE (FileLoader.init reread)).1 = some false := by
  refine ⟨?_, ?_, ?_⟩
  · unfold check_text
    rw [st1_eq_self_of_clean rfl, dispatch_low_err [] g p _ rfl rfl]
  · unfold check_text
    rw [st1_eq_self_of_clean rfl, dispatch_high_err [] g p _ rfl]
  · rw [check_text_init_brute [] g p reread]
    simp [bruteLineKeys, fileLines]

/-- C2 (amended): when the received payload decodes and trims to the
empty string, the handler sends no response — but instead of keeping
the connection open it hits `if not query: break`, leaves its loop, and
the session is closed; the remaining payloads are never read.  The
original claim that the connection remains open awaiting the next query
is refuted by `handle_empty_query_counterexample`. -/
theorem handle_empty_query_closes (content payload : Bytes) (rest : List Bytes)
    (st : FileLoader) (h : stripBytes payload = []) :
    handle content (payload :: rest) st = ([], st, SessionStatus.closed) := by
  unfold handle
  rw [if_pos (by simp [h])]

/-- Witness for `handle_empty_query_closes` at a whitespace-only
payload followed by a further query. -/
theorem handle_empty_query_closes_witness :
    stripBytes [32, 10] = [] ∧
    handle [98, 10] ([32, 10] :: [[98]]) (FileLoader.init false) =
      ([], FileLoader.init false, SessionStatus.closed) :=
  ⟨by decide,
   handle_empty_query_closes [98, 10] [32, 10] [[98]] (FileLoader.init false) (by decide)⟩

/-- Counterexample to C2 as stated: after an empty query the session is
closed, not awaiting, and the following query `"b"` — which on its own
would be answered `"STRING EXISTS\n"` — is never processed. -/
theorem handle_empty_query_counterexample :
    handle [98, 10] [[10], [98]] (FileLoader.init false) =
      ([], FileLoader.init false, SessionStatus.closed) ∧
    (handle [98, 10] [[98]] (FileLoader.init false)).1 = ["STRING EXISTS\n"] ∧
    SessionStatus.closed ≠ SessionStatus.awaiting := by
  refine ⟨by decide, by decide, by decide⟩

theorem bind_loop_trace_length (tb : Nat → Nat → Option String) (rp : Nat → Nat) :
    ∀ (r port : Nat) (trace : List Nat),
      (bind_server_loop tb rp r port trace).trace.length ≤ trace.length + r := by
  intro r
  induction r with
  | zero =>
    intro port trace
    simp [bind_server_loop, BindOutcome.trace]
  | succ n ih =>
    intro port trace
    unfold bind_server_loop
    cases htb : tb trace.length port with
    | none =>
      simp [BindOutcome.trace]
    | some msg =>
      have h := ih (if str_contains msg "Port in use" then rp trace.length else port)
        (trace ++ [port])
      simp only [List.length_append, List.length_cons, List.length_nil] at h
      show (bind_server_loop tb rp n
        (if str_contains msg "Port in use" then rp trace.length else port)
        (trace ++ [port])).trace.length ≤ trace.length + (n + 1)
      omega

theorem bind_loop_fatal_length (tb : Nat → Nat → Option String) (rp : Nat → Nat) :
    ∀ (r port : Nat) (trace t : List Nat),
      bind_server_loop tb rp r port trace = BindOutcome.exitedFatal t →
      t.length = trace.length + r := by
  intro r
  induction r with
  | zero =>
    intro port trace t h
    simp [bind_server_loop] at h
    rw [← h]
    simp
  | succ n ih =>
    intro port trace t h
    unfold bind_server_loop at h
    cases htb : tb trace.length port with
    | none =>
      rw [htb] at h
      simp at h
    | some msg =>
      rw [htb] at h
      have h2 := ih _ (trace ++ [port]) t h
      simp only [List.length_append, List.length_cons, List.length_nil] at h2
      omega

theorem bind_loop_ports (tb : Nat → Nat → Option String) (rp : Nat → Nat)
    (P : Nat → Prop) (hrp : ∀ n, P (rp n)) :
    ∀ (r port : Nat) (trace : List Nat), P port → (∀ q ∈ trace, P q) →
      ∀ q ∈ (bind_server_loop tb rp r port trace).trace, P q := by
  intro r
  induction r with
  | zero =>
    intro port trace hP htr q hq
    simp [bind_server_loop, BindOutcome.trace] at hq
    exact htr q hq
  | succ n ih =>
    intro port trace hP htr q hq
    unfold bind_server_loop at hq
    cases htb : tb trace.length port with
    | none =>
      rw [htb] at hq
      simp [BindOutcome.trace] at hq
      rcases hq with hq | hq
      · exact htr q hq
      · rw [hq]
        exact hP
    | some msg =>
      rw [htb] at hq
      refine ih _ (trace ++ [port]) ?_ ?_ q hq
      · by_cases hg : str_contains msg "Port in use"
        · rw [if_pos hg]
          exact hrp trace.length
        · rw [if_neg hg]
          exact hP
      · intro x hx
        rcases List.mem_append.mp hx with hx | hx
        · exact htr x hx
        · simp at hx
          rw [hx]
          exact hP

theorem bind_loop_same_port (tb : Nat → Nat → Option String) (rp : Nat → Nat)
    (hmsg : ∀ n p m, tb n p = some m → str_contains m "Port in use" = false) :
    ∀ (r port : Nat) (trace : List Nat), (∀ q ∈ trace, q = port) →
      ∀ q ∈ (bind_server_loop tb rp r port trace).trace, q = port := by
  intro r
  induction r with
  | zero =>
    intro port trace htr q hq
    simp [bind_server_loop, BindOutcome.trace] at hq
    exact htr q hq
  | succ n ih =>
    intro port trace htr q hq
    unfold bind_server_loop at hq
    cases htb : tb trace.length port with
    | none =>
      rw [htb] at hq
      simp [BindOutcome.trace] at hq
      rcases hq with hq | hq
      · exact htr q hq
      · exact hq
    | some msg =>
      rw [htb] at hq
      have hq2 : q ∈ (bind_server_loop tb rp n
          (if str_contains msg "Port in use" then rp trace.length else port)
          (trace ++ [port])).trace := hq
      rw [if_neg (by simp [hmsg trace.length port msg htb])] at hq2
      refine ih port (trace ++ [port]) ?_ q hq2
      intro x hx
      rcases List.mem_append.mp hx with hx | hx
      · exact htr x hx
      · simpa using hx

/-- C5 (amended): the bind loop makes at most six attempts in total
(`retry_mechanism` runs 0..5 before `sys.exit(-1)`), and when it exits
fatally it has made exactly six failed attempts — not five as claimed.
Every port it ever tries is the configured port or one drawn from
1024–65535; but a fresh pseudo-random port is drawn only when the error
message contains `"Port in use"`, so under the real `EADDRINUSE`
message (`addr_in_use_msg`, which does not contain that text — see
`bind_server_retry_counterexample`) every retry re-attempts the same
configured port. -/
theorem bind_server_retry_bound (tb : Nat → Nat → Option String) (rp : Nat → Nat)
    (port : Nat) (hrp : ∀ n, 1024 ≤ rp n ∧ rp n ≤ 65535) :
    (bind_server tb rp port).trace.length ≤ 6 ∧
    (∀ t, bind_server tb rp port = BindOutcome.exitedFatal t → t.length = 6) ∧
    (∀ q ∈ (bind_server tb rp port).trace, q = port ∨ (1024 ≤ q ∧ q ≤ 65535)) ∧
    ((∀ n p m, tb n p = some m → str_contains m "Port in use" = false) →
      ∀ q ∈ (bind_server tb rp port).trace, q = port) := by
  refine ⟨?_, ?_, ?_, ?_⟩
  · have h := bind_loop_trace_length tb rp 6 port []
    simpa using h
  · intro t h
    have h2 := bind_loop_fatal_length tb rp 6 port [] t h
    simpa using h2
  · intro q hq
    exact bind_loop_ports tb rp (fun x => x = port ∨ (1024 ≤ x ∧ x ≤ 65535))
      (fun n => Or.inr (hrp n)) 6 port [] (Or.inl rfl) (by simp) q hq
  · intro hmsg q hq
    exact bind_loop_same_port tb rp hmsg 6 port [] (by simp) q hq

/-- Witness for `bind_server_retry_bound` with every attempt failing
with the real address-in-use message and a fixed random source. -/
theorem bind_server_retry_bound_witness :
    (∀ n : Nat, 1024 ≤ fixed_rand_port n ∧ fixed_rand_port n ≤ 65535) ∧
    ((bind_server always_addr_in_use fixed_rand_port 43223).trace.length ≤ 6 ∧
     (∀ t, bind_server always_addr_in_use fixed_rand_port 43223 =
        BindOutcome.exitedFatal t → t.length = 6) ∧
     (∀ q ∈ (bind_server always_addr_in_use fixed_rand_port 43223).trace,
        q = 43223 ∨ (1024 ≤ q ∧ q ≤ 65535)) ∧
     ((∀ n p m, always_addr_in_use n p = some m →
         str_contains m "Port in use" = false) →
       ∀ q ∈ (bind_server always_addr_in_use fixed_rand_port 43223).trace, q = 43223)) :=
  ⟨fun _ => ⟨by norm_num [fixed_rand_port], by norm_num [fixed_rand_port]⟩,
   bind_server_retry_bound always_addr_in_use fixed_rand_port 43223
     (fun _ => ⟨by norm_num [fixed_rand_port], by norm_num [fixed_rand_port]⟩)⟩

/-- Counterexample to C5 as stated: with the preferred port occupied on
every attempt (the real `EADDRINUSE` message), the loop neither stops
after 5 attempts nor ever retries a pseudo-random port — it makes six
attempts, all on the configured port 43223, then exits fatally. -/
theorem bind_server_retry_counterexample :
    bind_server always_addr_in_use fixed_rand_port 43223 =
      BindOutcome.exitedFatal [43223, 43223, 43223, 43223, 43223, 43223] ∧
    str_contains addr_in_use_msg "Port in use" = false ∧
    (6 : Nat) ≠ 5 := by
  refine ⟨by decide, by decide, by decide⟩

/-- C7: freshness under enabled reread — for every strategy, with
reread-on-query enabled the line cache and the `_low_level_search` memo
are discarded before dispatching each query (the state the second query
dispatches on is exactly a fresh loader), so whatever the first query
did and however the file changed in between, the second query's result
is the one computed from the file's current content alone. -/
theorem check_text_reread_freshness (c1 c2 p1 p2 : Bytes) (g1 g2 : Except Unit Int)
    (a1 a2 : SearchAlgorithm) :
    ((if ((check_text c1 g1 p1 a1 (FileLoader.init true)).2).reread_on_query then
        clear_file_data_from_memory (check_text c1 g1 p1 a1 (FileLoader.init true)).2
      else (check_text c1 g1 p1 a1 (FileLoader.init true)).2) = FileLoader.init true) ∧
    (check_text c2 g2 p2 a2 (check_text c1 g1 p1 a1 (FileLoader.init true)).2).1 =
      (check_text c2 g2 p2 a2 (FileLoader.init true)).1 := by
  have hr : ((check_text c1 g1 p1 a1 (FileLoader.init true)).2).reread_on_query = true := by
    rw [check_text_reread]
    rfl
  have hinv : loader_inv (check_text c1 g1 p1 a1 (FileLoader.init true)).2 :=
    check_text_inv c1 g1 p1 a1 (FileLoader.init true) (fun _ => rfl)
  constructor
  · exact st1_clear_eq_init hr hinv
  · rw [check_text_fresh_under_reread c2 g2 p2 a2 _ hr hinv]

theorem check_text_low_memo_state (c : Bytes) (g : Except Unit Int) (q : Bytes)
    (st : FileLoader) (hr : st.reread_on_query = false) (hm : st.low_level_memo = true) :
    check_text c g q SearchAlgorithm.LOW_LEVEL st =
      (some (ddLookup st.loaded_data q),
       { st with loaded_data := (ddGet st.loaded_data q).2 }) := by
  unfold check_text
  rw [if_neg (by simp [hr])]
  exact dispatch_low_memo c g q st hm

/-- C3 (amended): idempotence under disabled reread holds for the
memoized low-level strategy — after a first `LOW_LEVEL` query from a
fresh loader on a non-empty file, a second `LOW_LEVEL` query with the
same pattern returns the same boolean and leaves the loader state
entirely unchanged, whatever the file content has become in the
meantime (the `lru_cache` memo makes the file irrelevant).  For the
other strategies the cache is rebuilt on every query and a file change
can change the answer — see
`check_text_reread_disabled_counterexample`. -/
theorem check_text_low_level_memoized_idempotent (c1 c2 p : Bytes)
    (g1 g2 : Except Unit Int) (h : c1 ≠ []) :
    (check_text c2 g2 p SearchAlgorithm.LOW_LEVEL
        (check_text c1 g1 p SearchAlgorithm.LOW_LEVEL (FileLoader.init false)).2).1 =
      (check_text c1 g1 p SearchAlgorithm.LOW_LEVEL (FileLoader.init false)).1 ∧
    (check_text c2 g2 p SearchAlgorithm.LOW_LEVEL
        (check_text c1 g1 p SearchAlgorithm.LOW_LEVEL (FileLoader.init false)).2).2 =
      (check_text c1 g1 p SearchAlgorithm.LOW_LEVEL (FileLoader.init false)).2 := by
  have hne : c1.isEmpty = false := by
    cases c1
    · exact absurd rfl h
    · rfl
  rw [check_text_init_low c1 g1 p false hne]
  rw [check_text_low_memo_state c2 g2 p _ rfl rfl]
  constructor
  · simp only []
    rw [ddLookup_ddGet_snd, ddLookup_ddUpdate_trueKeys]
    simp [ddLookup]
  · simp only []
    rw [ddGet_snd_of_contains (ddContains_ddGet_self _ p)]

/-- Counterexample to C3 as stated: with reread disabled, the
`HIGH_LEVEL` strategy re-reads the file on every query (only
`_low_level_search` is memoized), so when the file changes from
`"a\n"` to `"b\n"` between two queries for `"b"`, the answers differ:
`false` then `true`. -/
theorem check_text_reread_disabled_counterexample :
    (check_text [97, 10] (Except.ok 1) [98] SearchAlgorithm.HIGH_LEVEL
      (FileLoader.init false)).1 = some false ∧
    (check_text [98, 10] (Except.ok 1) [98] SearchAlgorithm.HIGH_LEVEL
      (check_text [97, 10] (Except.ok 1) [98] SearchAlgorithm.HIGH_LEVEL
        (FileLoader.init false)).2).1 = some true ∧
    some false ≠ (some true : Option Bool) := by
  refine ⟨by decide, by decide, by decide⟩

/-- C1 (amended): for a non-empty file and a non-empty, newline-free,
regex-metacharacter-free pattern that does not begin with `-` (the
regime in which grep takes the pattern as a literal positional argument
and the grep/regex substring embeddings are exact), (i) a pattern stored as a line key by the
memory-mapped load is answered `true` by every algorithm; (ii) a
pattern that occurs nowhere in the content — not even as a substring —
is answered `false` by every algorithm; and (iii) the three cache-based
algorithms always agree with each other.  Agreement of all five on
every pattern "absent as a line" fails, because grep and regex match
substrings: see `check_text_cross_algorithm_counterexample`. -/
theorem check_text_cross_algorithm_agreement (content p : Bytes) (reread : Bool)
    (a a2 : SearchAlgorithm) (hc : content ≠ []) (hp : p ≠ [])
    (hn : ¬ 10 ∈ p) (hl : isLiteralPattern p = true) (hdash : p.head? ≠ some 45) :
    (p ∈ mmapLineKeys content →
      (check_text content (grep_run_literal p content) p a (FileLoader.init reread)).1 =
        some true) ∧
    ((¬ p <:+: content) →
      (check_text content (grep_run_literal p content) p a (FileLoader.init reread)).1 =
        some false) ∧
    (a.uses_line_cache = true → a2.uses_line_cache = true →
      (check_text content (grep_run_literal p content) p a (FileLoader.init reread)).1 =
        (check_text content (grep_run_literal p content) p a2 (FileLoader.init reread)).1) := by
  have hne : content.isEmpty = false := by
    cases content
    · exact absurd rfl hc
    · rfl
  have hmem_iff : p ∈ bruteLineKeys content ↔ p ∈ mmapLineKeys content :=
    mem_bruteLineKeys_iff_of_ne_nil hp
  have hkeys : ∀ b : SearchAlgorithm, b.uses_line_cache = true →
      (check_text content (grep_run_literal p content) p b (FileLoader.init reread)).1 =
        some (decide (p ∈ mmapLineKeys content)) := by
    intro b hb
    rw [check_text_init_cache_fst content _ p reread b hb hne]
    cases b with
    | LOW_LEVEL => rfl
    | HIGH_LEVEL => rfl
    | BRUTE_FORCE =>
      simp only [strategy_line_keys]
      congr 1
      exact decide_eq_decide.mpr hmem_iff
    | GREP_SEARCH => simp [SearchAlgorithm.uses_line_cache] at hb
    | REGEX_SEARCH => simp [SearchAlgorithm.uses_line_cache] at hb
  refine ⟨?_, ?_, ?_⟩
  · intro hmem
    have hocc : occursIn p content = true :=
      (occursIn_iff p content).mpr (mem_mmapLineKeys_isInfix hmem)
    cases a with
    | LOW_LEVEL => rw [hkeys SearchAlgorithm.LOW_LEVEL rfl]; simp [hmem]
    | HIGH_LEVEL => rw [hkeys SearchAlgorithm.HIGH_LEVEL rfl]; simp [hmem]
    | BRUTE_FORCE => rw [hkeys SearchAlgorithm.BRUTE_FORCE rfl]; simp [hmem]
    | GREP_SEARCH => rw [check_text_grep_fst, search_with_grep_run, hocc]
    | REGEX_SEARCH => rw [check_text_regex_fst, hocc]
  · intro hninf
    have hnm : p ∉ mmapLineKeys content := fun hm => hninf (mem_mmapLineKeys_isInfix hm)
    have hocc : occursIn p content = false := by
      cases ho : occursIn p content
      · rfl
      · exact absurd ((occursIn_iff p content).mp ho) hninf
    cases a with
    | LOW_LEVEL => rw [hkeys SearchAlgorithm.LOW_LEVEL rfl]; simp [hnm]
    | HIGH_LEVEL => rw [hkeys SearchAlgorithm.HIGH_LEVEL rfl]; simp [hnm]
    | BRUTE_FORCE => rw [hkeys SearchAlgorithm.BRUTE_FORCE rfl]; simp [hnm]
    | GREP_SEARCH => rw [check_text_grep_fst, search_with_grep_run, hocc]
    | REGEX_SEARCH => rw [check_text_regex_fst, hocc]
  · intro ha ha2
    rw [hkeys a ha, hkeys a2 ha2]

/-- Witness for `check_text_cross_algorithm_agreement` on the file
`"hi\n"` and pattern `"hi"`, comparing the low-level and brute-force
strategies. -/
theorem check_text_cross_algorithm_agreement_witness :
    (([104, 105, 10] : Bytes) ≠ [] ∧ ([104, 105] : Bytes) ≠ [] ∧
      ¬ 10 ∈ ([104, 105] : Bytes) ∧ isLiteralPattern [104, 105] = true ∧
      ([104, 105] : Bytes).head? ≠ some 45) ∧
    (([104, 105] : Bytes) ∈ mmapLineKeys [104, 105, 10] →
      (check_text [104, 105, 10] (grep_run_literal [104, 105] [104, 105, 10])
        [104, 105] SearchAlgorithm.LOW_LEVEL (FileLoader.init false)).1 = some true) ∧
    ((¬ ([104, 105] : Bytes) <:+: [104, 105, 10]) →
      (check_text [104, 105, 10] (grep_run_literal [104, 105] [104, 105, 10])
        [104, 105] SearchAlgorithm.LOW_LEVEL (FileLoader.init false)).1 = some false) ∧
    (SearchAlgorithm.LOW_LEVEL.uses_line_cache = true →
      SearchAlgorithm.BRUTE_FORCE.uses_line_cache = true →
      (check_text [104, 105, 10] (grep_run_literal [104, 105] [104, 105, 10])
        [104, 105] SearchAlgorithm.LOW_LEVEL (FileLoader.init false)).1 =
      (check_text [104, 105, 10] (grep_run_literal [104, 105] [104, 105, 10])
        [104, 105] SearchAlgorithm.BRUTE_FORCE (FileLoader.init false)).1) :=
  ⟨⟨by decide, by decide, by decide, by decide, by decide⟩,
   check_text_cross_algorithm_agreement [104, 105, 10] [104, 105] false
     SearchAlgorithm.LOW_LEVEL SearchAlgorithm.BRUTE_FORCE
     (by decide) (by decide) (by decide) (by decide) (by decide)⟩

/-- Counterexample to C1 as stated: on the file `"hello"` the pattern
`"ell"` is not one of the file's lines, yet the five algorithms do not
all return `false` — brute force answers `false` while the regex and
grep strategies answer `true` (substring match). -/
theorem check_text_cross_algorithm_counterexample :
    ([101, 108, 108] : Bytes) ∉ mmapLineKeys [104, 101, 108, 108, 111] ∧
    ([101, 108, 108] : Bytes) ∉ bruteLineKeys [104, 101, 108, 108, 111] ∧
    (check_text [104, 101, 108, 108, 111]
      (grep_run_literal [101, 108, 108] [104, 101, 108, 108, 111])
      [101, 108, 108] SearchAlgorithm.BRUTE_FORCE (FileLoader.init false)).1 = some false ∧
    (check_text [104, 101, 108, 108, 111]
      (grep_run_literal [101, 108, 108] [104, 101, 108, 108, 111])
      [101, 108, 108] SearchAlgorithm.REGEX_SEARCH (FileLoader.init false)).1 = some true ∧
    (check_text [104, 101, 108, 108, 111]
      (grep_run_literal [101, 108, 108] [104, 101, 108, 108, 111])
      [101, 108, 108] SearchAlgorithm.GREP_SEARCH (FileLoader.init false)).1 = some true := by
  refine ⟨by decide, by decide, by decide, by decide, by decide⟩

/-- C4 (amended): every key any cache-populating strategy stores is
free of `\n` bytes and does not end in `\r` (trailing carriage returns
are stripped); on a file containing `"line1\r\nline2\r\n"`, the
brute-force strategy indexes exactly the two lines `"line1"` and
`"line2"`, while the memory-mapped strategies additionally index the
empty byte string produced by the segment after the final newline —
so "exactly the two lines in every strategy" fails, see
`line_cache_empty_key_counterexample`. -/
theorem line_cache_key_normalization (content k : Bytes)
    (h : k ∈ mmapLineKeys content ∨ k ∈ bruteLineKeys content) :
    (¬ 10 ∈ k ∧ k.getLast? ≠ some 13) ∧
    (check_text [108, 105, 110, 101, 49, 13, 10, 108, 105, 110, 101, 50, 13, 10]
        (Except.ok 1) [108, 105, 110, 101, 49] SearchAlgorithm.LOW_LEVEL
        (FileLoader.init false)).2.loaded_data =
      [([108, 105, 110, 101, 49], true), ([108, 105, 110, 101, 50], true), ([], true)] ∧
    (check_text [108, 105, 110, 101, 49, 13, 10, 108, 105, 110, 101, 50, 13, 10]
        (Except.ok 1) [108, 105, 110, 101, 49] SearchAlgorithm.BRUTE_FORCE
        (FileLoader.init false)).2.loaded_data =
      [([108, 105, 110, 101, 49], true), ([108, 105, 110, 101, 50], true)] := by
  refine ⟨?_, by decide, by decide⟩
  have hk : k ∈ mmapLineKeys content := by
    rcases h with h | h
    · exact h
    · exact mem_bruteLineKeys_mem_mmap h
  exact ⟨mem_mmapLineKeys_no_lf hk, mem_mmapLineKeys_getLast hk⟩

/-- Witness for `line_cache_key_normalization` at the key `"line1"` of
the CRLF demo file. -/
theorem line_cache_key_normalization_witness :
    (([108, 105, 110, 101, 49] : Bytes) ∈
        mmapLineKeys [108, 105, 110, 101, 49, 13, 10, 108, 105, 110, 101, 50, 13, 10] ∨
      ([108, 105, 110, 101, 49] : Bytes) ∈
        bruteLineKeys [108, 105, 110, 101, 49, 13, 10, 108, 105, 110, 101, 50, 13, 10]) ∧
    ((¬ 10 ∈ ([108, 105, 110, 101, 49] : Bytes) ∧
        ([108, 105, 110, 101, 49] : Bytes).getLast? ≠ some 13) ∧
     (check_text [108, 105, 110, 101, 49, 13, 10, 108, 105, 110, 101, 50, 13, 10]
         (Except.ok 1) [108, 105, 110, 101, 49] SearchAlgorithm.LOW_LEVEL
         (FileLoader.init false)).2.loaded_data =
       [([108, 105, 110, 101, 49], true), ([108, 105, 110, 101, 50], true), ([], true)] ∧
     (check_text [108, 105, 110, 101, 49, 13, 10, 108, 105, 110, 101, 50, 13, 10]
         (Except.ok 1) [108, 105, 110, 101, 49] SearchAlgorithm.BRUTE_FORCE
         (FileLoader.init false)).2.loaded_data =
       [([108, 105, 110, 101, 49], true), ([108, 105, 110, 101, 50], true)]) :=
  ⟨by decide,
   line_cache_key_normalization
     [108, 105, 110, 101, 49, 13, 10, 108, 105, 110, 101, 50, 13, 10]
     [108, 105, 110, 101, 49] (by decide)⟩

/-- Counterexample to C4 as stated: after the low-level strategy loads
the CRLF demo file, the cache answers `true` for the empty byte string,
which is not one of the two lines — the key set is not exactly
`{"line1", "line2"}`. -/
theorem line_cache_empty_key_counterexample :
    ddLookup (check_text [108, 105, 110, 101, 49, 13, 10, 108, 105, 110, 101, 50, 13, 10]
        (Except.ok 1) [108, 105, 110, 101, 49] SearchAlgorithm.LOW_LEVEL
        (FileLoader.init false)).2.loaded_data [] = true ∧
    ([] : Bytes) ∉ [([108, 105, 110, 101, 49] : Bytes), [108, 105, 110, 101, 50]] := by
  refine ⟨by decide, by decide⟩

theorem check_text_high_state (c : Bytes) (g : Except Unit Int) (q : Bytes)
    (st : FileLoader) (hr : st.reread_on_query = false) (hne : c.isEmpty = false) :
    check_text c g q SearchAlgorithm.HIGH_LEVEL st =
      (some (decide (q ∈ mmapLineKeys c) || ddLookup st.loaded_data q),
       { st with loaded_data := (ddGet (ddUpdate st.loaded_data
         ((mmapLineKeys c).map (fun k => (k, true)))) q).2 }) := by
  unfold check_text
  rw [if_neg (by simp [hr])]
  exact dispatch_high c g q st hne

theorem check_text_brute_state (c : Bytes) (g : Except Unit Int) (q : Bytes)
    (st : FileLoader) (hr : st.reread_on_query = false) :
    check_text c g q SearchAlgorithm.BRUTE_FORCE st =
      (some (decide (q ∈ bruteLineKeys c) || ddLookup st.loaded_data q),
       { st with loaded_data := (ddGet (ddUpdate st.loaded_data
         ((bruteLineKeys c).map (fun k => (k, true)))) q).2 }) := by
  unfold check_text
  rw [if_neg (by simp [hr])]
  exact dispatch_brute c g q st

/-- C9: a membership query mutates the cache — for the three
cache-based strategies, querying a pattern that is not among the loaded
line keys returns `false` and inserts `(pattern, false)` into
`_loaded_data` (the `defaultdict` default), so the key set is no longer
exactly the loaded lines; but the keys mapped to `true` remain exactly
the strategy's loaded line keys, and any later query with the same
strategy returns the same boolean it would have returned from a fresh
loader — the inserted `false` entries change no answer. -/
theorem check_text_defaultdict_mutation (content p : Bytes) (reread : Bool)
    (g1 : Except Unit Int) (a : SearchAlgorithm)
    (ha : a.uses_line_cache = true) (hc : content ≠ [])
    (hp1 : p ∉ mmapLineKeys content) (hp2 : p ∉ bruteLineKeys content) :
    (check_text content g1 p a (FileLoader.init reread)).1 = some false ∧
    (p, false) ∈ (check_text content g1 p a (FileLoader.init reread)).2.loaded_data ∧
    (∀ q, ddLookup (check_text content g1 p a (FileLoader.init reread)).2.loaded_data q = true
      ↔ q ∈ strategy_line_keys a content) ∧
    (∀ (q : Bytes) (g2 : Except Unit Int),
      (check_text content g2 q a (check_text content g1 p a (FileLoader.init reread)).2).1 =
        (check_text content g2 q a (FileLoader.init reread)).1) := by
  have hne : content.isEmpty = false := by
    cases content
    · exact absurd rfl hc
    · rfl
  have hfresh : ∀ (q : Bytes) (g2 : Except Unit Int), reread = true →
      (check_text content g2 q a (check_text content g1 p a (FileLoader.init reread)).2).1 =
        (check_text content g2 q a (FileLoader.init reread)).1 := by
    intro q g2 hrr
    subst hrr
    have hr2 : ((check_text content g1 p a (FileLoader.init true)).2).reread_on_query = true := by
      rw [check_text_reread]
      rfl
    have hinv : loader_inv (check_text content g1 p a (FileLoader.init true)).2 :=
      check_text_inv _ _ _ _ _ (fun _ => rfl)
    rw [check_text_fresh_under_reread content g2 q a _ hr2 hinv]
  cases a with
  | GREP_SEARCH => simp [SearchAlgorithm.uses_line_cache] at ha
  | REGEX_SEARCH => simp [SearchAlgorithm.uses_line_cache] at ha
  | LOW_LEVEL =>
    refine ⟨?_, ?_, ?_, ?_⟩
    · rw [check_text_init_low content g1 p reread hne]
      simp [hp1]
    · rw [check_text_init_low content g1 p reread hne]
      show (p, false) ∈ (ddGet (ddUpdate []
        ((mmapLineKeys content).map (fun k => (k, true)))) p).2
      apply mem_ddGet_snd_of_not_contains
      rw [ddContains_ddUpdate_trueKeys]
      simp [hp1, ddContains]
    · intro q
      rw [check_text_init_low content g1 p reread hne]
      show ddLookup (ddGet (ddUpdate []
        ((mmapLineKeys content).map (fun k => (k, true)))) p).2 q = true ↔
        q ∈ strategy_line_keys SearchAlgorithm.LOW_LEVEL content
      rw [ddLookup_ddGet_snd, ddLookup_ddUpdate_trueKeys]
      simp [ddLookup, strategy_line_keys]
    · intro q g2
      by_cases hrr : reread
      · exact hfresh q g2 hrr
      · have hrf : reread = false := bool_eq_false_of_not hrr
        subst hrf
        rw [check_text_init_low content g1 p false hne]
        rw [check_text_low_memo_state content g2 q _ rfl rfl]
        rw [check_text_init_low content g2 q false hne]
        show some (ddLookup (ddGet (ddUpdate []
          ((mmapLineKeys content).map (fun k => (k, true)))) p).2 q) =
          some (decide (q ∈ mmapLineKeys content))
        rw [ddLookup_ddGet_snd, ddLookup_ddUpdate_trueKeys]
        simp [ddLookup]
  | HIGH_LEVEL =>
    refine ⟨?_, ?_, ?_, ?_⟩
    · rw [check_text_init_high content g1 p reread hne]
      simp [hp1]
    · rw [check_text_init_high content g1 p reread hne]
      show (p, false) ∈ (ddGet (ddUpdate []
        ((mmapLineKeys content).map (fun k => (k, true)))) p).2
      apply mem_ddGet_snd_of_not_contains
      rw [ddContains_ddUpdate_trueKeys]
      simp [hp1, ddContains]
    · intro q
      rw [check_text_init_high content g1 p reread hne]
      show ddLookup (ddGet (ddUpdate []
        ((mmapLineKeys content).map (fun k => (k, true)))) p).2 q = true ↔
        q ∈ strategy_line_keys SearchAlgorithm.HIGH_LEVEL content
      rw [ddLookup_ddGet_snd, ddLookup_ddUpdate_trueKeys]
      simp [ddLookup, strategy_line_keys]
    · intro q g2
      by_cases hrr : reread
      · exact hfresh q g2 hrr
      · have hrf : reread = false := bool_eq_false_of_not hrr
        subst hrf
        rw [check_text_init_high content g1 p false hne]
        rw [check_text_high_state content g2 q _ rfl hne]
        rw [check_text_init_high content g2 q false hne]
        show some (decide (q ∈ mmapLineKeys content) ||
            ddLookup (ddGet (ddUpdate []
              ((mmapLineKeys content).map (fun k => (k, true)))) p).2 q) =
          some (decide (q ∈ mmapLineKeys content))
        rw [ddLookup_ddGet_snd, ddLookup_ddUpdate_trueKeys]
        simp [ddLookup]
  | BRUTE_FORCE =>
    refine ⟨?_, ?_, ?_, ?_⟩
    · rw [check_text_init_brute content g1 p reread]
      simp [hp2]
    · rw [check_text_init_brute content g1 p reread]
      show (p, false) ∈ (ddGet (ddUpdate []
        ((bruteLineKeys content).map (fun k => (k, true)))) p).2
      apply mem_ddGet_snd_of_not_contains
      rw [ddContains_ddUpdate_trueKeys]
      simp [hp2, ddContains]
    · intro q
      rw [check_text_init_brute content g1 p reread]
      show ddLookup (ddGet (ddUpdate []
        ((bruteLineKeys content).map (fun k => (k, true)))) p).2 q = true ↔
        q ∈ strategy_line_keys SearchAlgorithm.BRUTE_FORCE content
      rw [ddLookup_ddGet_snd, ddLookup_ddUpdate_trueKeys]
      simp [ddLookup, strategy_line_keys]
    · intro q g2
      by_cases hrr : reread
      · exact hfresh q g2 hrr
      · have hrf : reread = false := bool_eq_false_of_not hrr
        subst hrf
        rw [check_text_init_brute content g1 p false]
        rw [check_text_brute_state content g2 q _ rfl]
        rw [check_text_init_brute content g2 q false]
        show some (decide (q ∈ bruteLineKeys content) ||
            ddLookup (ddGet (ddUpdate []
              ((bruteLineKeys content).map (fun k => (k, true)))) p).2 q) =
          some (decide (q ∈ bruteLineKeys content))
        rw [ddLookup_ddGet_snd, ddLookup_ddUpdate_trueKeys]
        simp [ddLookup]

/-- Witness for `check_text_defaultdict_mutation`: querying `"b"` on
the file `"a\n"` with the high-level strategy. -/
theorem check_text_defaultdict_mutation_witness :
    (SearchAlgorithm.HIGH_LEVEL.uses_line_cache = true ∧ ([97, 10] : Bytes) ≠ [] ∧
      ([98] : Bytes) ∉ mmapLineKeys [97, 10] ∧ ([98] : Bytes) ∉ bruteLineKeys [97, 10]) ∧
    ((check_text [97, 10] (Except.ok 1) [98] SearchAlgorithm.HIGH_LEVEL
        (FileLoader.init false)).1 = some false ∧
     ([98], false) ∈ (check_text [97, 10] (Except.ok 1) [98] SearchAlgorithm.HIGH_LEVEL
        (FileLoader.init false)).2.loaded_data ∧
     (∀ q, ddLookup (check_text [97, 10] (Except.ok 1) [98] SearchAlgorithm.HIGH_LEVEL
          (FileLoader.init false)).2.loaded_data q = true
        ↔ q ∈ strategy_line_keys SearchAlgorithm.HIGH_LEVEL [97, 10]) ∧
     (∀ (q : Bytes) (g2 : Except Unit Int),
       (check_text [97, 10] g2 q SearchAlgorithm.HIGH_LEVEL
         (check_text [97, 10] (Except.ok 1) [98] SearchAlgorithm.HIGH_LEVEL
           (FileLoader.init false)).2).1 =
       (check_text [97, 10] g2 q SearchAlgorithm.HIGH_LEVEL (FileLoader.init false)).1)) :=
  ⟨⟨by decide, by decide, by decide, by decide⟩,
   check_text_defaultdict_mutation [97, 10] [98] false (Except.ok 1)
     SearchAlgorithm.HIGH_LEVEL (by decide) (by decide) (by decide) (by decide)⟩

/-- Witness for `check_text_low_level_memoized_idempotent`: the file
changes from `"a\n"` to `"b\n"` between the two queries for `"a"`, yet
the second low-level query returns the first answer from the memo. -/
theorem check_text_low_level_memoized_idempotent_witness :
    (([97, 10] : Bytes) ≠ []) ∧
    ((check_text [98, 10] (Except.ok 1) [97] SearchAlgorithm.LOW_LEVEL
        (check_text [97, 10] (Except.ok 1) [97] SearchAlgorithm.LOW_LEVEL
          (FileLoader.init false)).2).1 =
      (check_text [97, 10] (Except.ok 1) [97] SearchAlgorithm.LOW_LEVEL
        (FileLoader.init false)).1 ∧
     (check_text [98, 10] (Except.ok 1) [97] SearchAlgorithm.LOW_LEVEL
        (check_text [97, 10] (Except.ok 1) [97] SearchAlgorithm.LOW_LEVEL
          (FileLoader.init false)).2).2 =
      (check_text [97, 10] (Except.ok 1) [97] SearchAlgorithm.LOW_LEVEL
        (FileLoader.init false)).2) :=
  ⟨by decide,
   check_text_low_level_memoized_idempotent [97, 10] [98, 10] [97]
     (Except.ok 1) (Except.ok 1) (by decide)⟩
